import Mathlib

/-!
Verification development for the simulacrum ingestion pipeline.

The definitions below are shallow embeddings of the repository's source:
the JSONL entry schemas (`packages/common/src/schemas/jsonl.ts`), the
router (`packages/replay/src/parser/router.ts`), the staging store and its
SQL flush/truncate functions (`packages/replay/src/store/staging.ts`,
migration `002_staging`), the cursor (`packages/replay/src/store/cursor.ts`),
the batch accumulator (`store/accumulator`), the scanner's filter/sort/limit
pipeline (`scanner/discovery`, `scanner/filters.ts`) and the per-artifact
ingestion orchestrator (`packages/replay/src/store/types.ts`,
`ingestSession`).  Timestamps are modelled as integers (epoch
milliseconds), JSON field values as an explicit `Val` type, and database
effects as explicit state passing with injected failure points.
-/

namespace Simulacrum

/-- A field value in a routed row: the codomain of the row transforms in
`parser/router.ts` (strings, numbers, booleans, SQL NULL from `?? null`,
and structurally opaque JSON payloads such as `trackedFiles`). -/
inductive Val where
  | str (s : String)
  | int (i : Int)
  | bool (b : Bool)
  | null
  | blob (tag : Nat)
  deriving DecidableEq, Repr

/-- A routed row: field name / value pairs, as built by the row transforms
in `parser/router.ts` (`Record<string, unknown>` in the source). -/
abbrev RRow := List (String × Val)

/-- Source `entry.uuid ?? null` and friends. -/
def optStr : Option String → Val
  | some s => Val.str s
  | none => Val.null

/-- Source `entry.message.usage?.input_tokens ?? null` and friends. -/
def optInt : Option Int → Val
  | some i => Val.int i
  | none => Val.null

/-- User message content (`jsonl.ts` `UserEntry.message.content`):
either a plain string or a list of text blocks. -/
inductive UserContent where
  | str (s : String)
  | blocks (texts : List String)
  deriving DecidableEq, Repr

/-- Source `jsonl.ts` `UserEntry.message`. -/
structure UserMessage where
  content : UserContent
  deriving DecidableEq, Repr

/-- Assistant content block (`jsonl.ts` `TextBlock` / `ToolUseBlock`);
the tool-use input record is structurally opaque here. -/
inductive ContentBlock where
  | text (t : String)
  | toolUse (id : String) (name : String) (input : Nat)
  deriving DecidableEq, Repr

/-- Source `jsonl.ts` `UsageInfo`. -/
structure UsageInfo where
  input_tokens : Int
  output_tokens : Int
  cache_creation_input_tokens : Option Int := none
  cache_read_input_tokens : Option Int := none
  ephemeral_5m_input_tokens : Option Int := none
  ephemeral_1h_input_tokens : Option Int := none
  service_tier : Option String := none
  deriving DecidableEq, Repr

/-- Source `jsonl.ts` `AssistantEntry.message`. -/
structure AssistantMessage where
  id : Option String := none
  content : List ContentBlock
  model : Option String := none
  stop_reason : Option String := none
  stop_sequence : Option String := none
  usage : Option UsageInfo := none
  deriving DecidableEq, Repr

/-- The closed set of decoded record kinds (`jsonl.ts` `AnyEntry`), plus an
`unknown` constructor mirroring the router's dynamically-reachable default
branch (`router.ts` lines 311-320, `(entry as { type?: string }).type`):
a record whose `type` discriminant is outside the schema union. -/
inductive Entry where
  | user (timestamp : String) (message : UserMessage)
      (uuid parentUuid : Option String) (isSidechain : Option Bool)
      (version slug cwd gitBranch userType : Option String)
  | assistant (timestamp : String) (requestId : Option String)
      (message : AssistantMessage)
      (uuid parentUuid : Option String) (isMeta : Option Bool)
  | summary (timestamp : String) (summaryText : String)
      (leafUuid sessionId parentSessionId : Option String)
      (isSidechain : Option Bool)
  | customTitle (timestamp : String) (title : String)
  | fileHistorySnapshot (timestamp : String) (trackedFiles : Nat)
      (isSnapshotUpdate : Option Bool)
  | progress (timestamp : String)
      (hookEvent hookName command toolUseId parentToolUseId : Option String)
      (uuid parentUuid : Option String)
  | queueOperation (timestamp : String) (operation : String) (content : String)
  | system (timestamp : String) (subtype : String) (duration : Option Int)
      (uuid parentUuid : Option String) (isMeta : Option Bool)
  | unknown (kind : Option String)
  deriving DecidableEq, Repr

/-- Source `decoder.ts` `DecodedEntry`: a successfully decoded entry with its
1-indexed line number. -/
structure DecodedEntry where
  lineNum : Nat
  entry : Entry
  deriving DecidableEq, Repr

/-- Source `router.ts` `StagingTable` (the seven destinations; the `skip` member
of the source's string union is the `skipped` constructor of
`RouteResult` here). -/
inductive StagingTable where
  | sessions_staging
  | messages_staging
  | tool_calls_staging
  | progress_events_staging
  | queue_operations_staging
  | system_events_staging
  | file_history_staging
  deriving DecidableEq, Repr

/-- Source `router.ts` `RouteResult`: exactly one routed row or one skipped
record. -/
inductive RouteResult where
  | routed (table : StagingTable) (row : RRow) (lineNum : Nat)
  | skipped (reason : String) (entryType : String) (lineNum : Nat)
  deriving DecidableEq, Repr

/-- Source `router.ts` `toMessageRow`: transform a user/assistant entry into a
`messages_staging` row (any other kind yields the source's unreachable
`{}`). -/
def toMessageRow (e : Entry) (sessionId : String) : RRow :=
  match e with
  | .user ts msg uuid parentUuid _ _ _ _ _ _ =>
    let content :=
      match msg.content with
      | .str s => s
      | .blocks texts => String.join texts
    [("session_id", Val.str sessionId), ("timestamp", Val.str ts),
     ("role", Val.str "user"), ("content", Val.str content),
     ("is_meta", Val.bool false), ("uuid", optStr uuid),
     ("parent_uuid", optStr parentUuid)]
  | .assistant ts reqId msg uuid parentUuid isMeta =>
    let content :=
      String.join (msg.content.filterMap fun b =>
        match b with
        | .text t => some t
        | .toolUse _ _ _ => none)
    [("session_id", Val.str sessionId), ("timestamp", Val.str ts),
     ("role", Val.str "assistant"), ("content", Val.str content),
     ("is_meta", Val.bool (isMeta.getD false)), ("uuid", optStr uuid),
     ("parent_uuid", optStr parentUuid), ("request_id", optStr reqId),
     ("message_id", optStr msg.id), ("model", optStr msg.model),
     ("stop_reason", optStr msg.stop_reason),
     ("stop_sequence", optStr msg.stop_sequence),
     ("input_tokens", optInt (msg.usage.map (·.input_tokens))),
     ("output_tokens", optInt (msg.usage.map (·.output_tokens))),
     ("cache_creation_input_tokens",
       optInt (msg.usage.bind (·.cache_creation_input_tokens))),
     ("cache_read_input_tokens",
       optInt (msg.usage.bind (·.cache_read_input_tokens))),
     ("ephemeral_5m_input_tokens",
       optInt (msg.usage.bind (·.ephemeral_5m_input_tokens))),
     ("ephemeral_1h_input_tokens",
       optInt (msg.usage.bind (·.ephemeral_1h_input_tokens))),
     ("service_tier", optStr (msg.usage.bind (·.service_tier)))]
  | _ => []

/-- Source `router.ts` `toProgressRow`. -/
def toProgressRow (e : Entry) (sessionId : String) : RRow :=
  match e with
  | .progress ts hookEvent hookName command toolUseId parentToolUseId uuid parentUuid =>
    [("session_id", Val.str sessionId), ("timestamp", Val.str ts),
     ("hook_event", optStr hookEvent), ("hook_name", optStr hookName),
     ("command", optStr command), ("tool_use_id", optStr toolUseId),
     ("parent_tool_use_id", optStr parentToolUseId), ("uuid", optStr uuid),
     ("parent_uuid", optStr parentUuid)]
  | _ => []

/-- Source `router.ts` `toSessionMetadataRow`. -/
def toSessionMetadataRow (e : Entry) (sessionId : String) : RRow :=
  match e with
  | .summary _ summaryText leafUuid _ parentSessionId isSidechain =>
    [("id", Val.str sessionId), ("title", Val.str summaryText),
     ("leaf_uuid", optStr leafUuid),
     ("parent_session_id", optStr parentSessionId),
     ("is_sidechain", Val.bool (isSidechain.getD false))]
  | _ => []

/-- Source `router.ts` `toFileHistoryRow`. -/
def toFileHistoryRow (e : Entry) (sessionId : String) : RRow :=
  match e with
  | .fileHistorySnapshot ts trackedFiles isSnapshotUpdate =>
    [("session_id", Val.str sessionId), ("timestamp", Val.str ts),
     ("tracked_files", Val.blob trackedFiles),
     ("is_snapshot_update", Val.bool (isSnapshotUpdate.getD false))]
  | _ => []

/-- Source `router.ts` `toQueueOperationRow`. -/
def toQueueOperationRow (e : Entry) (sessionId : String) : RRow :=
  match e with
  | .queueOperation ts operation content =>
    [("session_id", Val.str sessionId), ("timestamp", Val.str ts),
     ("operation", Val.str operation), ("content", Val.str content)]
  | _ => []

/-- Source `router.ts` `toSystemEventRow`. -/
def toSystemEventRow (e : Entry) (sessionId : String) : RRow :=
  match e with
  | .system ts subtype duration uuid parentUuid isMeta =>
    [("session_id", Val.str sessionId), ("timestamp", Val.str ts),
     ("subtype", Val.str subtype), ("is_meta", Val.bool (isMeta.getD false)),
     ("duration_ms", optInt duration), ("uuid", optStr uuid),
     ("parent_uuid", optStr parentUuid)]
  | _ => []

/-- Source `router.ts` `routeEntry`: pure routing of one decoded entry, by the
`type` discriminant, to its destination staging table row, with the
default branch producing a skip for unknown kinds. -/
def routeEntry (decoded : DecodedEntry) (sessionId : String) : RouteResult :=
  match decoded.entry with
  | .user _ _ _ _ _ _ _ _ _ _ =>
    .routed .messages_staging (toMessageRow decoded.entry sessionId) decoded.lineNum
  | .assistant _ _ _ _ _ _ =>
    .routed .messages_staging (toMessageRow decoded.entry sessionId) decoded.lineNum
  | .progress _ _ _ _ _ _ _ _ =>
    .routed .progress_events_staging (toProgressRow decoded.entry sessionId) decoded.lineNum
  | .summary _ _ _ _ _ _ =>
    .routed .sessions_staging (toSessionMetadataRow decoded.entry sessionId) decoded.lineNum
  | .fileHistorySnapshot _ _ _ =>
    .routed .file_history_staging (toFileHistoryRow decoded.entry sessionId) decoded.lineNum
  | .queueOperation _ _ _ =>
    .routed .queue_operations_staging (toQueueOperationRow decoded.entry sessionId) decoded.lineNum
  | .system _ _ _ _ _ _ =>
    .routed .system_events_staging (toSystemEventRow decoded.entry sessionId) decoded.lineNum
  | .customTitle _ title =>
    .routed .sessions_staging [("custom_title", Val.str title)] decoded.lineNum
  | .unknown kind =>
    .skipped ("Unknown entry type: " ++ kind.getD "undefined")
      (kind.getD "undefined") decoded.lineNum

/-- Source `router.ts` `isSkipped` as a boolean on the embedded `RouteResult`. -/
def isSkipped : RouteResult → Bool
  | .routed _ _ _ => false
  | .skipped _ _ _ => true

/-- The primary-key value of a staged row: the `id` column, on which every
flush function's `ON CONFLICT (id) DO NOTHING` clause conflicts
(migration `002_staging`). -/
def rowKey (r : RRow) : Option Val :=
  (r.find? fun p => p.1 == "id").map Prod.snd

/-- One destination's pair of tables: the write-optimized staging table
and the permanent table. -/
structure TableState where
  staging : List RRow
  perm : List RRow
  deriving DecidableEq, Repr

/-- Whether a staged row's primary key conflicts with a row already in
`perm`.  SQL conflict checks match only non-NULL keys: a row with a NULL
(or absent) `id` never conflicts. -/
def keyConflicts (perm : List RRow) (r : RRow) : Bool :=
  match rowKey r with
  | none => false
  | some k =>
    if k = Val.null then false
    else perm.any fun q => decide (rowKey q = some k)

/-- The flush-function body from migration `002_staging`:
`INSERT INTO <perm> SELECT * FROM <staging> ON CONFLICT (id) DO NOTHING
RETURNING 1`, counting the rows actually inserted.  Rows are attempted in
order; a row whose key matches the permanent table — including a key
inserted earlier in the same statement — is skipped. -/
def insertConflictFree (perm : List RRow) (staged : List RRow) : List RRow × Nat :=
  match staged with
  | [] => (perm, 0)
  | r :: rest =>
    if keyConflicts perm r then insertConflictFree perm rest
    else
      let (p, n) := insertConflictFree (perm ++ [r]) rest
      (p, n + 1)

/-- One destination's flush function (`flush_<table>_staging()`): the
conflict-free insert of all staged rows into the permanent table,
returning the inserted count, followed by `TRUNCATE` of the staging
table. -/
def flushTable (t : TableState) : TableState × Nat :=
  let (p, n) := insertConflictFree t.perm t.staging
  (⟨[], p⟩, n)

/-- Source `cursor.ts` `CursorValue` (timestamps as epoch milliseconds). -/
structure CursorValue where
  timestamp : Int
  lastSessionId : String
  sessionsProcessed : Nat
  updatedAt : Int
  deriving DecidableEq, Repr

/-- The destination store: seven destinations, each with a staging table
and a permanent table (`store/types.ts` row types, migration
`002_staging`), plus the single-key cursor row of `ingestion_state`. -/
structure DBState where
  sessions : TableState
  messages : TableState
  toolCalls : TableState
  progressEvents : TableState
  queueOperations : TableState
  systemEvents : TableState
  fileHistory : TableState
  cursor : Option CursorValue
  deriving DecidableEq, Repr

/-- Migration `002_staging` `truncate_staging_tables()` exactly as the
repository's migrations define it: it truncates the staging tables of
four destinations — `sessions_staging`, `messages_staging`,
`tool_calls_staging`, `progress_events_staging` — and no others. -/
def truncate_staging_tables (db : DBState) : DBState :=
  { db with
    sessions := { db.sessions with staging := [] }
    messages := { db.messages with staging := [] }
    toolCalls := { db.toolCalls with staging := [] }
    progressEvents := { db.progressEvents with staging := [] } }

/-- Source `store/types.ts` `StagingFlushResult` (`durationMs` not modelled). -/
structure StagingFlushResult where
  sessionsInserted : Nat
  messagesInserted : Nat
  toolCallsInserted : Nat
  progressEventsInserted : Nat
  queueOperationsInserted : Nat
  systemEventsInserted : Nat
  fileHistoryInserted : Nat
  deriving DecidableEq, Repr

/-- Source `staging.ts` `flushAllStaging`: a single transaction invoking each
destination's flush function in turn and collecting the per-table
inserted counts.  The four flush functions present in migration
`002_staging` all share the shape embedded as `flushTable`.  The
remaining three (`flush_queue_operations_staging`,
`flush_system_events_staging`, `flush_file_history_staging`) are invoked
by the source but created by no migration in the repository; those three
are modelled from the spec: every destination has "a primary-key-based
conflict-free upsert function" of the same shape. -/
def flushAllStaging (db : DBState) : DBState × StagingFlushResult :=
  let (sessions, sessionsInserted) := flushTable db.sessions
  let (messages, messagesInserted) := flushTable db.messages
  let (toolCalls, toolCallsInserted) := flushTable db.toolCalls
  let (progressEvents, progressEventsInserted) := flushTable db.progressEvents
  let (queueOperations, queueOperationsInserted) := flushTable db.queueOperations
  let (systemEvents, systemEventsInserted) := flushTable db.systemEvents
  let (fileHistory, fileHistoryInserted) := flushTable db.fileHistory
  ({ db with
     sessions := sessions, messages := messages, toolCalls := toolCalls,
     progressEvents := progressEvents, queueOperations := queueOperations,
     systemEvents := systemEvents, fileHistory := fileHistory },
   ⟨sessionsInserted, messagesInserted, toolCallsInserted,
    progressEventsInserted, queueOperationsInserted, systemEventsInserted,
    fileHistoryInserted⟩)

/-- Source `cursor.ts` `setCursor`: an unconditional upsert of the single
well-known cursor key; `sessionId ?? ''`, `sessionsProcessed ?? 1`,
`updatedAt` set to the write time. -/
def setCursor (_prev : Option CursorValue) (timestamp : Int)
    (sessionId : Option String) (sessionsProcessed : Option Nat)
    (now : Int) : Option CursorValue :=
  some ⟨timestamp, sessionId.getD "", sessionsProcessed.getD 1, now⟩

/-- Source `cursor.ts` `getCursor` over the embedded single-key state: the
stored cursor, or `none` when absent (first run). -/
def getCursor (state : Option CursorValue) : Option CursorValue := state

/-- Source `cursor.ts` `shouldProcessSession`: true when no cursor exists, or
when the candidate modification time is strictly after the cursor's
timestamp (`sessionMtime > c.timestamp`). -/
def shouldProcessSession (cursor : Option CursorValue) (sessionMtime : Int) : Bool :=
  match cursor with
  | none => true
  | some c => c.timestamp < sessionMtime

/-- Source `store/accumulator` `AccumulatorState`. -/
structure AccumulatorState (T : Type) where
  items : List T
  totalFlushed : Nat
  flushCount : Nat
  deriving DecidableEq, Repr

/-- Source `store/types.ts` `FlushResult` (`durationMs` fixed at 0: time is not
modelled). -/
structure FlushResult where
  insertedCount : Nat
  table : String
  durationMs : Nat
  deriving DecidableEq, Repr

/-- Source `store/accumulator` `doFlush`: a flush of an empty buffer is a no-op
returning a zero inserted count without invoking `flushFn`; otherwise
`flushFn` is applied to the buffered items, the buffer is cleared, and
the running totals are updated with the returned count. -/
def doFlush {T : Type} (tableName : String) (flushFn : List T → Nat)
    (s : AccumulatorState T) : AccumulatorState T × FlushResult :=
  if s.items.isEmpty then (s, ⟨0, tableName, 0⟩)
  else
    ({ items := [], totalFlushed := s.totalFlushed + flushFn s.items,
       flushCount := s.flushCount + 1 },
     ⟨flushFn s.items, tableName, 0⟩)

/-- Source `store/accumulator` `add`: append the item to the buffer; once the
buffer length reaches `batchSize`, flush and return the flush result. -/
def accAdd {T : Type} (tableName : String) (flushFn : List T → Nat)
    (batchSize : Nat) (s : AccumulatorState T) (item : T) :
    AccumulatorState T × Option FlushResult :=
  let s1 := { s with items := s.items ++ [item] }
  if batchSize ≤ s1.items.length then
    let (s2, fr) := doFlush tableName flushFn s1
    (s2, some fr)
  else (s1, none)

/-- Source `store/accumulator` `addMany`: `add` each item in turn, collecting the
flush results of any automatic flushes. -/
def accAddMany {T : Type} (tableName : String) (flushFn : List T → Nat)
    (batchSize : Nat) (s : AccumulatorState T) (items : List T) :
    AccumulatorState T × List FlushResult :=
  match items with
  | [] => (s, [])
  | x :: xs =>
    let (s1, ofr) := accAdd tableName flushFn batchSize s x
    let (s2, frs) := accAddMany tableName flushFn batchSize s1 xs
    (s2, ofr.toList ++ frs)

/-- Source `store/accumulator` initial state (`Ref.make` in
`createBatchAccumulator`). -/
def accEmpty {T : Type} : AccumulatorState T := ⟨[], 0, 0⟩

/-- Source `scanner/types.ts` `SessionFile`, restricted to the attributes that
the filter/sort pipeline reads (identifier and modification time, the
latter as epoch milliseconds). -/
structure SessionFile where
  uuid : String
  modifiedAt : Int
  deriving DecidableEq, Repr

/-- The comparator of `sessions.sort((a, b) => a.modifiedAt.getTime() -
b.modifiedAt.getTime())` as an ordering relation. -/
def mtimeLe (a b : SessionFile) : Prop := a.modifiedAt ≤ b.modifiedAt

instance : DecidableRel mtimeLe := fun a b => Int.decLe a.modifiedAt b.modifiedAt

instance : IsTotal SessionFile mtimeLe :=
  ⟨fun a b => Int.le_total a.modifiedAt b.modifiedAt⟩

instance : IsTrans SessionFile mtimeLe :=
  ⟨fun _ _ _ => Int.le_trans⟩

/-- Source `scanner/filters.ts` `filterBySince`: keep only the sessions whose
modification time is strictly greater than `since` (exclusive bound). -/
def filterBySince (sessions : List SessionFile) (since : Int) : List SessionFile :=
  sessions.filter fun s => since < s.modifiedAt

/-- Source `scanner/filters.ts` `sortOldestFirst`: sort ascending by
modification time (a stable comparator sort in the source). -/
def sortOldestFirst (sessions : List SessionFile) : List SessionFile :=
  sessions.insertionSort mtimeLe

/-- Source `scanner/types.ts` `ScanOptions`, restricted to the `since` and
`limit` filters (the project filter binds no claim here). -/
structure ScanOptions where
  since : Option Int := none
  limit : Option Nat := none

/-- Source `scanner/filters.ts` `applyFilters` (project filter omitted): apply
the exclusive `since` filter, sort oldest first, then apply `limit`
(`options.limit && options.limit > 0` — a zero limit is ignored). -/
def applyFilters (sessions : List SessionFile) (options : ScanOptions) :
    List SessionFile :=
  let r1 :=
    match options.since with
    | some t => filterBySince sessions t
    | none => sessions
  let r2 := sortOldestFirst r1
  match options.limit with
  | some n => if 0 < n then r2.take n else r2
  | none => r2

/-- The per-file loop of `scanner/discovery` `scanDirectory`: each
discovery outcome is an `Either`; a failure is collected as an error (not
returned here), and a success is pushed onto `sessions` unless
`options?.since && result.right.modifiedAt <= options.since` — the
exclusive `since` filter — drops it. -/
def scanCollect (since : Option Int) (acc : List SessionFile) :
    List (Except String SessionFile) → List SessionFile
  | [] => acc
  | r :: rest =>
    match r with
    | .ok s =>
      match since with
      | some t =>
        if s.modifiedAt ≤ t then scanCollect since acc rest
        else scanCollect since (acc ++ [s]) rest
      | none => scanCollect since (acc ++ [s]) rest
    | .error _ => scanCollect since acc rest

/-- Source `scanner/discovery` `scanDirectory` from the per-file loop onward:
collect the surviving sessions, sort them ascending by modification time,
and apply `options.limit` (`options?.limit ?` — a zero limit is falsy in
the source and means no limit). -/
def scanPipeline (results : List (Except String SessionFile))
    (since : Option Int) (limit : Option Nat) : List SessionFile :=
  let sorted := (scanCollect since [] results).insertionSort mtimeLe
  match limit with
  | some n => if n = 0 then sorted else sorted.take n
  | none => sorted

/-- One item of the decoded line sequence feeding `ingestSession`:
a successfully decoded entry, a decode failure (`ParseError`), or an I/O
failure surfaced by the stream (`IOError`). -/
inductive LineItem where
  | ok (e : DecodedEntry)
  | bad
  | ioErr
  deriving DecidableEq, Repr

/-- Source `store/types.ts` `DBError.operation`. -/
inductive DBOperation where
  | insert_staging
  | flush
  | cursor_get
  | cursor_set
  | truncate
  | transaction
  deriving DecidableEq, Repr

/-- The error channel of `ingestSession`: `IOError | ParseError |
DBError` (each carries a cause in the source; only the tag decides
control flow). -/
inductive IngestError where
  | io
  | parse
  | db (op : DBOperation)
  deriving DecidableEq, Repr

/-- Injected failure points for the store operations: which
staging-insert call fails (by call index), and whether the truncate,
flush transaction, or cursor upsert fails. -/
structure IngestEnv where
  insertFails : Nat → Bool
  truncateFails : Bool
  flushFails : Bool
  cursorFails : Bool

/-- The environment in which every store operation succeeds. -/
def IngestEnv.noFail : IngestEnv := ⟨fun _ => false, false, false, false⟩

/-- Source `store/types.ts` `IngestConfig` (with the defaults of
`DEFAULT_INGEST_CONFIG`). -/
structure IngestConfig where
  batchSize : Nat := 1000
  updateCursor : Bool := true
  resilient : Bool := true

/-- Observable store events of one run, used to state which steps were
attempted. -/
inductive TraceEv where
  | truncateAll
  | stageInsert (table : StagingTable) (count : Nat)
  | flushAll
  | cursorSet (timestamp : Int) (sessionId : String)
  deriving DecidableEq, Repr

/-- Source `store/types.ts` `Accumulators`: one accumulator per destination. -/
structure Accumulators where
  sessions : AccumulatorState RRow
  messages : AccumulatorState RRow
  toolCalls : AccumulatorState RRow
  progressEvents : AccumulatorState RRow
  queueOperations : AccumulatorState RRow
  systemEvents : AccumulatorState RRow
  fileHistory : AccumulatorState RRow
  deriving DecidableEq, Repr

/-- Fresh accumulators (`ingestSession` step 2). -/
def emptyAccumulators : Accumulators :=
  ⟨accEmpty, accEmpty, accEmpty, accEmpty, accEmpty, accEmpty, accEmpty⟩

/-- Read one destination's accumulator. -/
def accOf (a : Accumulators) : StagingTable → AccumulatorState RRow
  | .sessions_staging => a.sessions
  | .messages_staging => a.messages
  | .tool_calls_staging => a.toolCalls
  | .progress_events_staging => a.progressEvents
  | .queue_operations_staging => a.queueOperations
  | .system_events_staging => a.systemEvents
  | .file_history_staging => a.fileHistory

/-- Replace one destination's accumulator. -/
def setAcc (a : Accumulators) (t : StagingTable) (v : AccumulatorState RRow) :
    Accumulators :=
  match t with
  | .sessions_staging => { a with sessions := v }
  | .messages_staging => { a with messages := v }
  | .tool_calls_staging => { a with toolCalls := v }
  | .progress_events_staging => { a with progressEvents := v }
  | .queue_operations_staging => { a with queueOperations := v }
  | .system_events_staging => { a with systemEvents := v }
  | .file_history_staging => { a with fileHistory := v }

/-- Append rows to one destination's staging table. -/
def addStagingRows (db : DBState) (t : StagingTable) (rows : List RRow) : DBState :=
  match t with
  | .sessions_staging =>
    { db with sessions := { db.sessions with staging := db.sessions.staging ++ rows } }
  | .messages_staging =>
    { db with messages := { db.messages with staging := db.messages.staging ++ rows } }
  | .tool_calls_staging =>
    { db with toolCalls := { db.toolCalls with staging := db.toolCalls.staging ++ rows } }
  | .progress_events_staging =>
    { db with progressEvents :=
        { db.progressEvents with staging := db.progressEvents.staging ++ rows } }
  | .queue_operations_staging =>
    { db with queueOperations :=
        { db.queueOperations with staging := db.queueOperations.staging ++ rows } }
  | .system_events_staging =>
    { db with systemEvents :=
        { db.systemEvents with staging := db.systemEvents.staging ++ rows } }
  | .file_history_staging =>
    { db with fileHistory :=
        { db.fileHistory with staging := db.fileHistory.staging ++ rows } }

/-- The state threaded through one `ingestSession` run: the store, the
seven accumulators, the counters of the streaming phase, the
staging-insert call index (for failure injection), and the event
trace. -/
structure IState where
  db : DBState
  accs : Accumulators
  totalProcessed : Nat
  skipped : Nat
  parseErrors : Nat
  insertCalls : Nat
  trace : List TraceEv

/-- Source `staging.ts` `insertToStaging` over the embedded state: a zero-row
insert returns 0 without touching the store; otherwise append the rows to
the destination's staging table and return the row count, or fail with
`DBError` operation `insert_staging` (leaving the store unchanged) when
the environment makes this call fail. -/
def insertToStaging (env : IngestEnv) (s : IState) (t : StagingTable)
    (rows : List RRow) : Except IngestError (IState × Nat) :=
  if rows.isEmpty then .ok (s, 0)
  else if env.insertFails s.insertCalls then .error (.db .insert_staging)
  else
    .ok ({ s with
           db := addStagingRows s.db t rows,
           insertCalls := s.insertCalls + 1,
           trace := s.trace ++ [.stageInsert t rows.length] },
         rows.length)

/-- Source `accumulator.add` bound to the destination's staging-insert function
(`ingestSession` step 2): append the row to the buffer; when the buffer
reaches `batchSize`, stage the buffered rows and on success clear the
buffer and update the totals.  On a staging failure, the buffer keeps
the appended row and the store is unchanged. -/
def accAddStaged (cfg : IngestConfig) (env : IngestEnv) (s : IState)
    (t : StagingTable) (row : RRow) : Except (IngestError × IState) IState :=
  let acc := accOf s.accs t
  let acc1 := { acc with items := acc.items ++ [row] }
  let s1 := { s with accs := setAcc s.accs t acc1 }
  if cfg.batchSize ≤ acc1.items.length then
    match insertToStaging env s1 t acc1.items with
    | .error e => .error (e, s1)
    | .ok (s2, count) =>
      .ok { s2 with
            accs := setAcc s2.accs t
              ⟨[], acc1.totalFlushed + count, acc1.flushCount + 1⟩ }
  else .ok s1

/-- Source `accumulator.flush` bound to the destination's staging-insert
function (`ingestSession` step 4): an empty buffer is a no-op; otherwise
stage the buffered rows and clear the buffer. -/
def accFlushStaged (env : IngestEnv) (s : IState) (t : StagingTable) :
    Except (IngestError × IState) IState :=
  let acc := accOf s.accs t
  if acc.items.isEmpty then .ok s
  else
    match insertToStaging env s t acc.items with
    | .error e => .error (e, s)
    | .ok (s2, count) =>
      .ok { s2 with
            accs := setAcc s2.accs t
              ⟨[], acc.totalFlushed + count, acc.flushCount + 1⟩ }

/-- The per-item body of `ingestSession`'s streaming phase (`types.ts`
lines 489-549 plus `processRoutedEntry`): an I/O failure from the stream
is fatal in both modes; a decode failure is counted and skipped in
resilient mode and fatal in strict mode; a decoded entry is counted,
routed by `routeEntry`, and either counted as skipped or added to its
destination's accumulator. -/
def processItem (cfg : IngestConfig) (env : IngestEnv) (sessionId : String)
    (s : IState) (item : LineItem) : Except (IngestError × IState) IState :=
  match item with
  | .ioErr => .error (.io, s)
  | .bad =>
    if cfg.resilient then
      .ok { s with totalProcessed := s.totalProcessed + 1,
                   parseErrors := s.parseErrors + 1 }
    else .error (.parse, s)
  | .ok decoded =>
    let s1 := { s with totalProcessed := s.totalProcessed + 1 }
    match routeEntry decoded sessionId with
    | .skipped _ _ _ => .ok { s1 with skipped := s1.skipped + 1 }
    | .routed t row _ => accAddStaged cfg env s1 t row

/-- Drive the stream: process the items in order, stopping at the first
failure (the `Stream.runDrain` of `ingestSession` step 3). -/
def processLines (cfg : IngestConfig) (env : IngestEnv) (sessionId : String) :
    IState → List LineItem → Except (IngestError × IState) IState
  | s, [] => .ok s
  | s, item :: rest =>
    match processItem cfg env sessionId s item with
    | .error es => .error es
    | .ok s1 => processLines cfg env sessionId s1 rest

/-- Source `ingestSession` step 4: force-flush every accumulator, in source
order. -/
def accFlushAllStaged (env : IngestEnv) (s : IState) :
    Except (IngestError × IState) IState := do
  let s ← accFlushStaged env s .sessions_staging
  let s ← accFlushStaged env s .messages_staging
  let s ← accFlushStaged env s .tool_calls_staging
  let s ← accFlushStaged env s .progress_events_staging
  let s ← accFlushStaged env s .queue_operations_staging
  let s ← accFlushStaged env s .system_events_staging
  let s ← accFlushStaged env s .file_history_staging
  pure s

/-- Source `ingestSession` step 5: the all-destinations flush transaction.  An
injected failure rolls the transaction back — the store is unchanged —
and surfaces as `DBError` operation `transaction`. -/
def flushAllStep (env : IngestEnv) (s : IState) :
    Except (IngestError × IState) (IState × StagingFlushResult) :=
  if env.flushFails then .error (.db .transaction, s)
  else
    let (db1, result) := flushAllStaging s.db
    .ok ({ s with db := db1, trace := s.trace ++ [.flushAll] }, result)

/-- Source `ingestSession` step 6: `if (config.updateCursor !== false)` advance
the cursor to this artifact's modification time and identifier via
`setCursor`.  An injected failure surfaces as `DBError` operation
`cursor_set` and leaves the stored cursor unchanged. -/
def cursorStep (cfg : IngestConfig) (env : IngestEnv) (s : IState)
    (sessionUuid : String) (modifiedAt now : Int) :
    Except (IngestError × IState) IState :=
  if cfg.updateCursor then
    if env.cursorFails then .error (.db .cursor_set, s)
    else
      .ok { s with
            db := { s.db with
                    cursor := setCursor s.db.cursor modifiedAt
                      (some sessionUuid) (some 1) now },
            trace := s.trace ++ [.cursorSet modifiedAt sessionUuid] }
  else .ok s

/-- Source `store/types.ts` `IngestionStats` (timestamps and durations not
modelled). -/
structure IngestionStats where
  sessionId : String
  totalEntriesProcessed : Nat
  totalStagingInserts : Nat
  totalProductionInserts : Nat
  batchCount : Nat
  parseErrors : Nat
  entriesSkipped : Nat
  deriving DecidableEq, Repr

/-- Source `ingestSession` step 7: assemble the stats from the accumulator
states and the flush result. -/
def mkStats (sessionUuid : String) (s : IState) (fr : StagingFlushResult) :
    IngestionStats :=
  { sessionId := sessionUuid
    totalEntriesProcessed := s.totalProcessed
    totalStagingInserts :=
      (accOf s.accs .sessions_staging).totalFlushed +
      (accOf s.accs .messages_staging).totalFlushed +
      (accOf s.accs .tool_calls_staging).totalFlushed +
      (accOf s.accs .progress_events_staging).totalFlushed +
      (accOf s.accs .queue_operations_staging).totalFlushed +
      (accOf s.accs .system_events_staging).totalFlushed +
      (accOf s.accs .file_history_staging).totalFlushed
    totalProductionInserts :=
      fr.sessionsInserted + fr.messagesInserted + fr.toolCallsInserted +
      fr.progressEventsInserted + fr.queueOperationsInserted +
      fr.systemEventsInserted + fr.fileHistoryInserted
    batchCount :=
      (accOf s.accs .sessions_staging).flushCount +
      (accOf s.accs .messages_staging).flushCount +
      (accOf s.accs .tool_calls_staging).flushCount +
      (accOf s.accs .progress_events_staging).flushCount +
      (accOf s.accs .queue_operations_staging).flushCount +
      (accOf s.accs .system_events_staging).flushCount +
      (accOf s.accs .file_history_staging).flushCount
    parseErrors := s.parseErrors
    entriesSkipped := s.skipped }

/-- Source `store/types.ts` `ingestSession`: the per-artifact state machine —
truncate the staging tables, stream/decode/route/accumulate, force-flush
the accumulators, flush staging to production in one transaction, advance
the cursor, and emit stats; terminal on the first failure, returning the
state reached together with the outcome. -/
def ingestSession (cfg : IngestConfig) (env : IngestEnv)
    (sessionUuid : String) (modifiedAt now : Int)
    (lines : List LineItem) (db0 : DBState) :
    IState × Except IngestError IngestionStats :=
  let s0 : IState :=
    { db := db0, accs := emptyAccumulators, totalProcessed := 0,
      skipped := 0, parseErrors := 0, insertCalls := 0, trace := [] }
  if env.truncateFails then (s0, .error (.db .truncate))
  else
    let s1 := { s0 with db := truncate_staging_tables s0.db,
                        trace := s0.trace ++ [.truncateAll] }
    match processLines cfg env sessionUuid s1 lines with
    | .error (e, sE) => (sE, .error e)
    | .ok s2 =>
      match accFlushAllStaged env s2 with
      | .error (e, sE) => (sE, .error e)
      | .ok s3 =>
        match flushAllStep env s3 with
        | .error (e, sE) => (sE, .error e)
        | .ok (s4, fr) =>
          match cursorStep cfg env s4 sessionUuid modifiedAt now with
          | .error (e, sE) => (sE, .error e)
          | .ok s5 => (s5, .ok (mkStats sessionUuid s5 fr))

/-- Migration `002_staging` `sessions_staging` DDL: the columns declared
NOT NULL. -/
def sessions_staging_not_null_columns : List String :=
  ["id", "project_path", "started_at", "status"]

/-- An empty store (all fourteen tables empty, no cursor), used as a
concrete evaluation point. -/
def dbEmpty : DBState :=
  ⟨⟨[], []⟩, ⟨[], []⟩, ⟨[], []⟩, ⟨[], []⟩, ⟨[], []⟩, ⟨[], []⟩, ⟨[], []⟩, none⟩

/-! ## Claim C3 — routing totality and exhaustiveness -/

/-- Claim C3: for every decoded record and session identifier,
`routeEntry` returns exactly one routed row or exactly one skipped record
— never both and never neither; it never skips any of the eight known
kinds; and for any input whose kind lies outside the closed set it always
returns a skip with that kind recorded in the skip reason and entry-type
field. -/
theorem routeEntry_total_and_exhaustive (d : DecodedEntry) (sid : String) :
    ((∃ t row ln, routeEntry d sid = .routed t row ln) ↔
      ¬ ∃ k, d.entry = .unknown k)
    ∧ ((∃ reason k ln, routeEntry d sid = .skipped reason k ln) ↔
      ∃ k, d.entry = .unknown k)
    ∧ (∀ k, d.entry = .unknown k →
        routeEntry d sid =
          .skipped ("Unknown entry type: " ++ k.getD "undefined")
            (k.getD "undefined") d.lineNum) := by
  obtain ⟨ln, e⟩ := d
  cases e <;> simp [routeEntry]

/-- Witness for C3: a record of the unrecognized kind `wibble` is skipped
with that kind recorded, at line 3. -/
theorem routeEntry_total_and_exhaustive_witness :
    routeEntry ⟨3, .unknown (some "wibble")⟩ "sid" =
      .skipped "Unknown entry type: wibble" "wibble" 3 :=
  (routeEntry_total_and_exhaustive ⟨3, .unknown (some "wibble")⟩ "sid").2.2
    (some "wibble") rfl

/-! ## Claim C10 — the custom-title row is not keyed to its session -/

/-- Claim C10: routing a custom-title record yields a sessions-destination
row whose only field is the title override `custom_title` — it carries no
`id` and no `session_id` — even though the `sessions_staging` DDL
declares `id` NOT NULL; by contrast, every other routed kind's row does
carry the session identifier (`session_id`, or `id` for the summary
metadata patch). -/
theorem customTitle_row_unkeyed (ts title sid : String) (ln : Nat) :
    routeEntry ⟨ln, .customTitle ts title⟩ sid =
      .routed .sessions_staging [("custom_title", Val.str title)] ln
    ∧ (∀ p ∈ [("custom_title", Val.str title)], p.1 ≠ "id" ∧ p.1 ≠ "session_id")
    ∧ "id" ∈ sessions_staging_not_null_columns
    ∧ (∀ d : DecodedEntry, ∀ t row l, routeEntry d sid = .routed t row l →
        (∀ ts2 title2, d.entry ≠ .customTitle ts2 title2) →
        ("session_id", Val.str sid) ∈ row ∨ ("id", Val.str sid) ∈ row) := by
  refine ⟨rfl, by simp, by simp [sessions_staging_not_null_columns], ?_⟩
  rintro ⟨l0, e⟩ t row l hroute hnotct
  cases e with
  | user =>
    simp [routeEntry, toMessageRow] at hroute
    simp [← hroute.2.1]
  | assistant =>
    simp [routeEntry, toMessageRow] at hroute
    simp [← hroute.2.1]
  | summary =>
    simp [routeEntry, toSessionMetadataRow] at hroute
    simp [← hroute.2.1]
  | customTitle ts2 title2 => exact absurd rfl (hnotct ts2 title2)
  | fileHistorySnapshot =>
    simp [routeEntry, toFileHistoryRow] at hroute
    simp [← hroute.2.1]
  | progress =>
    simp [routeEntry, toProgressRow] at hroute
    simp [← hroute.2.1]
  | queueOperation =>
    simp [routeEntry, toQueueOperationRow] at hroute
    simp [← hroute.2.1]
  | system =>
    simp [routeEntry, toSystemEventRow] at hroute
    simp [← hroute.2.1]
  | unknown => simp [routeEntry] at hroute

/-- Witness for C10: at a concrete assistant record, the routed row
carries the session identifier, while the concrete custom-title row does
not. -/
theorem customTitle_row_unkeyed_witness :
    ("session_id", Val.str "s9") ∈
        (toMessageRow (.assistant "t0" none ⟨none, [], none, none, none, none⟩
          none none none) "s9")
      ∨ ("id", Val.str "s9") ∈
        (toMessageRow (.assistant "t0" none ⟨none, [], none, none, none, none⟩
          none none none) "s9") :=
  (customTitle_row_unkeyed "t0" "title" "s9" 1).2.2.2
    ⟨1, .assistant "t0" none ⟨none, [], none, none, none, none⟩ none none none⟩
    .messages_staging _ 1 rfl (by intro ts2 title2 h; exact Entry.noConfusion h)

/-! ## Claim C7 — cursor monotonicity and the shouldProcess gate -/

/-- Counterexample for C7: `setCursor` is an unconditional upsert.  With
a current cursor at timestamp 5, a `set` at timestamp 3 followed by
`get` returns a cursor at timestamp 3, strictly smaller than the
previous cursor — refuting "set followed by get returns a cursor value
greater than or equal to the previous cursor" as universally stated. -/
theorem setCursor_not_monotone :
    getCursor (setCursor (some ⟨5, "a", 1, 0⟩) 3 (some "b") (some 1) 9) =
      some ⟨3, "b", 1, 9⟩ ∧ (3 : Int) < 5 := by
  exact ⟨rfl, by decide⟩

/-- Claim C7 (amended): `get` after `set` returns exactly the cursor just
set; whenever the timestamp passed to `set` is admitted by
`shouldProcess` — the documented calling discipline — the new cursor's
timestamp is greater than or equal to (indeed strictly greater than) the
previous cursor's; and `shouldProcess` is true when the cursor is absent,
false for every candidate at or before the cursor's timestamp, and true
for every candidate strictly after it. -/
theorem cursor_monotone_when_gated (prev : Option CursorValue) (ts : Int)
    (sid : Option String) (n : Option Nat) (now : Int) :
    getCursor (setCursor prev ts sid n now) = some ⟨ts, sid.getD "", n.getD 1, now⟩
    ∧ (shouldProcessSession prev ts = true → ∀ c, prev = some c → c.timestamp < ts)
    ∧ shouldProcessSession none ts = true
    ∧ (∀ c : CursorValue, shouldProcessSession (some c) ts = true ↔ c.timestamp < ts) := by
  refine ⟨rfl, ?_, rfl, fun c => ?_⟩
  · intro hgate c hc
    subst hc
    simpa [shouldProcessSession] using hgate
  · simp [shouldProcessSession]

/-- Witness for C7 (amended): with a cursor at timestamp 1 and a gated
`set` at timestamp 4, the previous timestamp is strictly below the new
one. -/
theorem cursor_monotone_when_gated_witness :
    (⟨1, "a", 1, 0⟩ : CursorValue).timestamp < 4 :=
  (cursor_monotone_when_gated (some ⟨1, "a", 1, 0⟩) 4 (some "b") (some 1) 9).2.1
    (by decide) ⟨1, "a", 1, 0⟩ rfl

/-! ## Claim C4 — truncate-all versus the seven scratch tables -/

/-- Claim C4 evaluated (code bug): `truncate_staging_tables()` as defined
by the repository's migrations clears only four of the seven scratch
tables.  At a store whose seven staging tables each hold one row, the
sessions, messages, tool-calls and progress-events staging tables are
cleared, while the queue-operations, system-events and file-history
staging tables still hold their row. -/
theorem truncate_staging_tables_misses_three :
    (truncate_staging_tables
      ⟨⟨[[("id", Val.str "x")]], []⟩, ⟨[[("id", Val.str "x")]], []⟩,
       ⟨[[("id", Val.str "x")]], []⟩, ⟨[[("id", Val.str "x")]], []⟩,
       ⟨[[("id", Val.str "x")]], []⟩, ⟨[[("id", Val.str "x")]], []⟩,
       ⟨[[("id", Val.str "x")]], []⟩, none⟩) =
    ⟨⟨[], []⟩, ⟨[], []⟩, ⟨[], []⟩, ⟨[], []⟩,
     ⟨[[("id", Val.str "x")]], []⟩, ⟨[[("id", Val.str "x")]], []⟩,
     ⟨[[("id", Val.str "x")]], []⟩, none⟩ := rfl

/-! ## Ingestion-run invariants -/

/-- The state an ingestion phase ends in, whether it succeeded or
failed. -/
def outState : Except (IngestError × IState) IState → IState
  | .ok s => s
  | .error (_, s) => s

/-- Source `s1` extends `s` with staging-insert trace events only, leaving the
stored cursor untouched: the invariant of the streaming and accumulator
phases. -/
def StageExtends (s s1 : IState) : Prop :=
  s1.db.cursor = s.db.cursor ∧
  ∃ tr, s1.trace = s.trace ++ tr ∧
    ∀ ev ∈ tr, ∃ t n, ev = TraceEv.stageInsert t n

theorem stageExtends_refl (s : IState) : StageExtends s s :=
  ⟨rfl, [], by simp [outState], by simp⟩

theorem stageExtends_trans {a b c : IState}
    (hab : StageExtends a b) (hbc : StageExtends b c) : StageExtends a c := by
  obtain ⟨hc1, tr1, ht1, hs1⟩ := hab
  obtain ⟨hc2, tr2, ht2, hs2⟩ := hbc
  refine ⟨hc2.trans hc1, tr1 ++ tr2, ?_, ?_⟩
  · rw [ht2, ht1, List.append_assoc]
  · intro ev hev
    rcases List.mem_append.mp hev with h | h
    · exact hs1 ev h
    · exact hs2 ev h

/-- Appending staging rows never touches the cursor. -/
theorem addStagingRows_cursor (db : DBState) (t : StagingTable)
    (rows : List RRow) : (addStagingRows db t rows).cursor = db.cursor := by
  cases t <;> rfl

/-- A successful staging insert only appends a staging-insert trace
event. -/
theorem insertToStaging_stageExtends (env : IngestEnv) (s : IState)
    (t : StagingTable) (rows : List RRow) (s1 : IState) (n : Nat)
    (h : insertToStaging env s t rows = .ok (s1, n)) : StageExtends s s1 := by
  unfold insertToStaging at h
  by_cases hemp : rows.isEmpty
  · rw [if_pos hemp] at h
    cases h
    exact stageExtends_refl s
  · rw [if_neg hemp] at h
    by_cases hfail : env.insertFails s.insertCalls
    · rw [if_pos hfail] at h
      exact Except.noConfusion h
    · rw [if_neg hfail] at h
      cases h
      exact ⟨addStagingRows_cursor s.db t rows,
        [TraceEv.stageInsert t rows.length], rfl, by simp⟩

/-- The accumulator `add` preserves the invariant whether it flushes,
fails, or just buffers. -/
theorem accAddStaged_stageExtends (cfg : IngestConfig) (env : IngestEnv)
    (s : IState) (t : StagingTable) (row : RRow) :
    StageExtends s (outState (accAddStaged cfg env s t row)) := by
  simp only [accAddStaged]
  split
  · split
    · exact ⟨rfl, [], by simp [outState], by simp⟩
    · rename_i s2 count heq
      have h2 := insertToStaging_stageExtends env _ t _ s2 count heq
      obtain ⟨hc, tr, ht, hstage⟩ := h2
      exact ⟨hc, tr, ht, hstage⟩
  · exact ⟨rfl, [], by simp [outState], by simp⟩

/-- The per-item step preserves the invariant. -/
theorem processItem_stageExtends (cfg : IngestConfig) (env : IngestEnv)
    (sid : String) (s : IState) (item : LineItem) :
    StageExtends s (outState (processItem cfg env sid s item)) := by
  cases item with
  | ioErr => exact stageExtends_refl s
  | bad =>
    simp only [processItem]
    split
    · exact ⟨rfl, [], by simp [outState], by simp⟩
    · exact stageExtends_refl s
  | ok decoded =>
    simp only [processItem]
    split
    · exact ⟨rfl, [], by simp [outState], by simp⟩
    · rename_i t row ln heq
      exact stageExtends_trans (⟨rfl, [], by simp [outState], by simp⟩ :
        StageExtends s { s with totalProcessed := s.totalProcessed + 1 })
        (accAddStaged_stageExtends cfg env _ t row)

/-- The whole streaming phase preserves the invariant. -/
theorem processLines_stageExtends (cfg : IngestConfig) (env : IngestEnv)
    (sid : String) :
    ∀ (items : List LineItem) (s : IState),
      StageExtends s (outState (processLines cfg env sid s items)) := by
  intro items
  induction items with
  | nil => intro s; exact stageExtends_refl s
  | cons item rest ih =>
    intro s
    unfold processLines
    cases hstep : processItem cfg env sid s item with
    | error es =>
      have h := processItem_stageExtends cfg env sid s item
      rw [hstep] at h
      exact h
    | ok s1 =>
      have h := processItem_stageExtends cfg env sid s item
      rw [hstep] at h
      exact stageExtends_trans h (ih s1)

/-- A forced accumulator flush preserves the invariant. -/
theorem accFlushStaged_stageExtends (env : IngestEnv) (s : IState)
    (t : StagingTable) :
    StageExtends s (outState (accFlushStaged env s t)) := by
  simp only [accFlushStaged]
  split
  · exact stageExtends_refl s
  · split
    · exact stageExtends_refl s
    · rename_i s2 count heq
      have h2 := insertToStaging_stageExtends env s t _ s2 count heq
      obtain ⟨hc, tr, ht, hstage⟩ := h2
      exact ⟨hc, tr, ht, hstage⟩

/-- Sequencing two invariant-preserving phases preserves the
invariant. -/
theorem stageExtends_bind (s : IState)
    (m : Except (IngestError × IState) IState)
    (f : IState → Except (IngestError × IState) IState)
    (hm : StageExtends s (outState m))
    (hf : ∀ s1, StageExtends s1 (outState (f s1))) :
    StageExtends s (outState (m >>= f)) := by
  cases m with
  | error es => exact hm
  | ok s1 => exact stageExtends_trans hm (hf s1)

/-- The force-flush of all seven accumulators preserves the invariant. -/
theorem accFlushAllStaged_stageExtends (env : IngestEnv) (s : IState) :
    StageExtends s (outState (accFlushAllStaged env s)) := by
  unfold accFlushAllStaged
  refine stageExtends_bind s _ _ (accFlushStaged_stageExtends env s _) fun s1 => ?_
  refine stageExtends_bind s1 _ _ (accFlushStaged_stageExtends env s1 _) fun s2 => ?_
  refine stageExtends_bind s2 _ _ (accFlushStaged_stageExtends env s2 _) fun s3 => ?_
  refine stageExtends_bind s3 _ _ (accFlushStaged_stageExtends env s3 _) fun s4 => ?_
  refine stageExtends_bind s4 _ _ (accFlushStaged_stageExtends env s4 _) fun s5 => ?_
  refine stageExtends_bind s5 _ _ (accFlushStaged_stageExtends env s5 _) fun s6 => ?_
  simpa [outState] using accFlushStaged_stageExtends env s6 _

/-! ## Claim C2 — an aborted run leaves the cursor untouched -/

/-- Claim C2: when `ingestSession` aborts mid-stream — an I/O error, a
strict-mode decode failure, or a store error while staging — it fails
without attempting the flush-to-permanent step and without invoking
`setCursor`, so the persisted cursor after the failed run equals the
cursor before the run. -/
theorem ingest_abort_preserves_cursor (cfg : IngestConfig) (env : IngestEnv)
    (uuid : String) (mt now : Int) (lines : List LineItem) (db0 : DBState)
    (sF : IState) (e : IngestError)
    (hrun : ingestSession cfg env uuid mt now lines db0 = (sF, .error e))
    (htag : e = .io ∨ e = .parse ∨ e = .db .insert_staging) :
    sF.db.cursor = db0.cursor
    ∧ TraceEv.flushAll ∉ sF.trace
    ∧ (∀ ts sid, TraceEv.cursorSet ts sid ∉ sF.trace) := by
  unfold ingestSession at hrun
  by_cases htr : env.truncateFails
  · rw [if_pos htr] at hrun
    simp only [Prod.mk.injEq] at hrun
    obtain ⟨h1, _⟩ := hrun
    subst h1
    exact ⟨rfl, by simp, by intro ts sid; simp⟩
  · rw [if_neg htr] at hrun
    simp only [List.nil_append] at hrun
    set s1 : IState :=
      { db := truncate_staging_tables db0, accs := emptyAccumulators,
        totalProcessed := 0, skipped := 0, parseErrors := 0,
        insertCalls := 0, trace := [TraceEv.truncateAll] } with hs1
    have hinv : ∀ sZ : IState, StageExtends s1 sZ →
        sZ.db.cursor = db0.cursor ∧ TraceEv.flushAll ∉ sZ.trace
        ∧ (∀ ts sid, TraceEv.cursorSet ts sid ∉ sZ.trace) := by
      intro sZ hx
      obtain ⟨hc, tr, ht, hstage⟩ := hx
      have hcur : sZ.db.cursor = db0.cursor := hc
      refine ⟨hcur, ?_, ?_⟩
      · rw [ht]
        intro hmem
        rcases List.mem_append.mp hmem with h | h
        · simp [hs1] at h
        · obtain ⟨t, n, hev⟩ := hstage _ h
          exact TraceEv.noConfusion hev
      · intro ts sid
        rw [ht]
        intro hmem
        rcases List.mem_append.mp hmem with h | h
        · simp [hs1] at h
        · obtain ⟨t, n, hev⟩ := hstage _ h
          exact TraceEv.noConfusion hev
    cases hpl : processLines cfg env uuid s1 lines with
    | error es =>
      obtain ⟨e1, sE⟩ := es
      rw [hpl] at hrun
      simp only [Prod.mk.injEq] at hrun
      obtain ⟨h1, _⟩ := hrun
      subst h1
      have h := processLines_stageExtends cfg env uuid lines s1
      rw [hpl] at h
      exact hinv sE h
    | ok s2 =>
      rw [hpl] at hrun
      dsimp only at hrun
      have hx2 : StageExtends s1 s2 := by
        have h := processLines_stageExtends cfg env uuid lines s1
        rw [hpl] at h
        exact h
      cases hfa : accFlushAllStaged env s2 with
      | error es =>
        obtain ⟨e2, sE⟩ := es
        rw [hfa] at hrun
        simp only [Prod.mk.injEq] at hrun
        obtain ⟨h1, _⟩ := hrun
        subst h1
        have h := accFlushAllStaged_stageExtends env s2
        rw [hfa] at h
        exact hinv sE (stageExtends_trans hx2 h)
      | ok s3 =>
        rw [hfa] at hrun
        dsimp only at hrun
        unfold flushAllStep at hrun
        by_cases hfl : env.flushFails
        · rw [if_pos hfl] at hrun
          simp only [Prod.mk.injEq] at hrun
          obtain ⟨_, h2⟩ := hrun
          have he : e = .db .transaction := (Except.error.injEq _ _).mp h2.symm
          subst he
          rcases htag with h | h | h <;> simp at h
        · rw [if_neg hfl] at hrun
          rcases hfs : flushAllStaging s3.db with ⟨db1, fres⟩
          rw [hfs] at hrun
          dsimp only at hrun
          unfold cursorStep at hrun
          by_cases hup : cfg.updateCursor
          · rw [if_pos hup] at hrun
            by_cases hcf : env.cursorFails
            · rw [if_pos hcf] at hrun
              simp only [Prod.mk.injEq] at hrun
              obtain ⟨_, h2⟩ := hrun
              have he : e = .db .cursor_set := (Except.error.injEq _ _).mp h2.symm
              subst he
              rcases htag with h | h | h <;> simp at h
            · rw [if_neg hcf] at hrun
              simp only [Prod.mk.injEq] at hrun
              exact absurd hrun.2.symm (by simp)
          · rw [if_neg hup] at hrun
            simp only [Prod.mk.injEq] at hrun
            exact absurd hrun.2.symm (by simp)

/-- Witness for C2: a run aborted by an immediate I/O error, over a store
whose cursor points at timestamp 7, ends with the cursor still at
timestamp 7. -/
theorem ingest_abort_preserves_cursor_witness :
    (ingestSession {} IngestEnv.noFail "u" 1 2 [LineItem.ioErr]
        { dbEmpty with cursor := some ⟨7, "p", 1, 0⟩ }).1.db.cursor =
      some ⟨7, "p", 1, 0⟩ := by
  have h := ingest_abort_preserves_cursor {} IngestEnv.noFail "u" 1 2
    [LineItem.ioErr] { dbEmpty with cursor := some ⟨7, "p", 1, 0⟩ }
    (ingestSession {} IngestEnv.noFail "u" 1 2 [LineItem.ioErr]
        { dbEmpty with cursor := some ⟨7, "p", 1, 0⟩ }).1
    .io rfl (Or.inl rfl)
  exact h.1

/-! ## Success-path lemmas for the ingestion run -/

/-- A staging insert never fails when the environment makes no insert
fail. -/
theorem insertToStaging_ne_error (env : IngestEnv) (s : IState)
    (t : StagingTable) (rows : List RRow) (es : IngestError)
    (hins : ∀ k, env.insertFails k = false) :
    insertToStaging env s t rows ≠ .error es := by
  unfold insertToStaging
  by_cases hemp : rows.isEmpty
  · rw [if_pos hemp]
    exact fun h => Except.noConfusion h
  · rw [if_neg hemp, hins s.insertCalls]
    simp

/-- A successful staging insert leaves the streaming counters
untouched. -/
theorem insertToStaging_counters (env : IngestEnv) (s : IState)
    (t : StagingTable) (rows : List RRow) (s1 : IState) (n : Nat)
    (h : insertToStaging env s t rows = .ok (s1, n)) :
    s1.totalProcessed = s.totalProcessed ∧ s1.parseErrors = s.parseErrors
    ∧ s1.skipped = s.skipped := by
  unfold insertToStaging at h
  by_cases hemp : rows.isEmpty
  · rw [if_pos hemp] at h
    cases h
    exact ⟨rfl, rfl, rfl⟩
  · rw [if_neg hemp] at h
    by_cases hfail : env.insertFails s.insertCalls
    · rw [if_pos hfail] at h
      exact Except.noConfusion h
    · rw [if_neg hfail] at h
      cases h
      exact ⟨rfl, rfl, rfl⟩

/-- The accumulator `add` succeeds under a no-failure environment and
leaves the streaming counters untouched. -/
theorem accAddStaged_ok (cfg : IngestConfig) (env : IngestEnv) (s : IState)
    (t : StagingTable) (row : RRow) (hins : ∀ k, env.insertFails k = false) :
    ∃ s1, accAddStaged cfg env s t row = .ok s1
      ∧ s1.totalProcessed = s.totalProcessed
      ∧ s1.parseErrors = s.parseErrors
      ∧ s1.skipped = s.skipped := by
  simp only [accAddStaged]
  split
  · split
    · rename_i e heq
      exact absurd heq (insertToStaging_ne_error env _ t _ e hins)
    · rename_i s2 count heq
      obtain ⟨h1, h2, h3⟩ := insertToStaging_counters env _ t _ s2 count heq
      exact ⟨_, rfl, h1, h2, h3⟩
  · exact ⟨_, rfl, rfl, rfl, rfl⟩

/-- A forced accumulator flush succeeds under a no-failure environment
and leaves the streaming counters untouched. -/
theorem accFlushStaged_ok (env : IngestEnv) (s : IState) (t : StagingTable)
    (hins : ∀ k, env.insertFails k = false) :
    ∃ s1, accFlushStaged env s t = .ok s1
      ∧ s1.totalProcessed = s.totalProcessed
      ∧ s1.parseErrors = s.parseErrors
      ∧ s1.skipped = s.skipped := by
  simp only [accFlushStaged]
  split
  · exact ⟨s, rfl, rfl, rfl, rfl⟩
  · split
    · rename_i e heq
      exact absurd heq (insertToStaging_ne_error env _ t _ e hins)
    · rename_i s2 count heq
      obtain ⟨h1, h2, h3⟩ := insertToStaging_counters env _ t _ s2 count heq
      exact ⟨_, rfl, h1, h2, h3⟩

/-- Rewrite a bind whose first component is known to succeed. -/
theorem except_bind_ok {α β γ : Type} (m : Except γ α) (f : α → Except γ β)
    (a : α) (h : m = .ok a) : m >>= f = f a := by
  rw [h]
  rfl

/-- The force-flush of all seven accumulators succeeds under a
no-failure environment and leaves the streaming counters untouched. -/
theorem accFlushAllStaged_ok (env : IngestEnv) (s : IState)
    (hins : ∀ k, env.insertFails k = false) :
    ∃ s1, accFlushAllStaged env s = .ok s1
      ∧ s1.totalProcessed = s.totalProcessed
      ∧ s1.parseErrors = s.parseErrors
      ∧ s1.skipped = s.skipped := by
  unfold accFlushAllStaged
  obtain ⟨s1, h1, a1, b1, c1⟩ := accFlushStaged_ok env s .sessions_staging hins
  simp only [except_bind_ok _ _ _ h1]
  obtain ⟨s2, h2, a2, b2, c2⟩ := accFlushStaged_ok env s1 .messages_staging hins
  simp only [except_bind_ok _ _ _ h2]
  obtain ⟨s3, h3, a3, b3, c3⟩ := accFlushStaged_ok env s2 .tool_calls_staging hins
  simp only [except_bind_ok _ _ _ h3]
  obtain ⟨s4, h4, a4, b4, c4⟩ := accFlushStaged_ok env s3 .progress_events_staging hins
  simp only [except_bind_ok _ _ _ h4]
  obtain ⟨s5, h5, a5, b5, c5⟩ := accFlushStaged_ok env s4 .queue_operations_staging hins
  simp only [except_bind_ok _ _ _ h5]
  obtain ⟨s6, h6, a6, b6, c6⟩ := accFlushStaged_ok env s5 .system_events_staging hins
  simp only [except_bind_ok _ _ _ h6]
  obtain ⟨s7, h7, a7, b7, c7⟩ := accFlushStaged_ok env s6 .file_history_staging hins
  simp only [except_bind_ok _ _ _ h7]
  refine ⟨s7, rfl, ?_, ?_, ?_⟩
  · rw [a7, a6, a5, a4, a3, a2, a1]
  · rw [b7, b6, b5, b4, b3, b2, b1]
  · rw [c7, c6, c5, c4, c3, c2, c1]

/-- A per-item step on a decoded or (in resilient mode) malformed line
succeeds under a no-failure environment, incrementing the processed
counter and, for a malformed line, the parse-error counter. -/
theorem processItem_ok (cfg : IngestConfig) (env : IngestEnv) (sid : String)
    (s : IState) (item : LineItem) (hres : cfg.resilient = true)
    (hio : item ≠ LineItem.ioErr) (hins : ∀ k, env.insertFails k = false) :
    ∃ s1, processItem cfg env sid s item = .ok s1
      ∧ s1.totalProcessed = s.totalProcessed + 1
      ∧ s1.parseErrors =
          s.parseErrors + (if item = LineItem.bad then 1 else 0) := by
  cases item with
  | ioErr => exact absurd rfl hio
  | bad =>
    simp only [processItem]
    rw [if_pos hres]
    exact ⟨_, rfl, rfl, by simp⟩
  | ok decoded =>
    simp only [processItem]
    split
    · exact ⟨_, rfl, rfl, by simp⟩
    · rename_i t row ln heq
      obtain ⟨s1, h1, a1, b1, _⟩ := accAddStaged_ok cfg env
        { s with totalProcessed := s.totalProcessed + 1 } t row hins
      exact ⟨s1, h1, a1, by simpa using b1⟩

/-- The resilient streaming phase processes every line under a
no-failure, I/O-error-free run, counting every line and every malformed
line. -/
theorem processLines_resilient_ok (cfg : IngestConfig) (env : IngestEnv)
    (sid : String) (hres : cfg.resilient = true)
    (hins : ∀ k, env.insertFails k = false) :
    ∀ (items : List LineItem) (s : IState), LineItem.ioErr ∉ items →
      ∃ s1, processLines cfg env sid s items = .ok s1
        ∧ s1.totalProcessed = s.totalProcessed + items.length
        ∧ s1.parseErrors = s.parseErrors + items.count LineItem.bad := by
  intro items
  induction items with
  | nil => intro s _; exact ⟨s, rfl, by simp, by simp [List.count_nil]⟩
  | cons item rest ih =>
    intro s hio
    obtain ⟨s1, heq1, hp1, he1⟩ := processItem_ok cfg env sid s item hres
      (fun h => hio (h ▸ List.mem_cons_self item rest)) hins
    obtain ⟨s2, heq2, hp2, he2⟩ := ih s1
      (fun h => hio (List.mem_cons_of_mem _ h))
    refine ⟨s2, ?_, ?_, ?_⟩
    · simp only [processLines, heq1]
      exact heq2
    · rw [hp2, hp1]
      simp only [List.length_cons]
      omega
    · rw [he2, he1, List.count_cons]
      by_cases hbad : item = LineItem.bad
      · subst hbad
        simp
        omega
      · simp [hbad]

/-- The streaming phase over successfully decoded lines succeeds under a
no-failure environment (in either mode). -/
theorem processLines_entries_ok (cfg : IngestConfig) (env : IngestEnv)
    (sid : String) (hins : ∀ k, env.insertFails k = false) :
    ∀ (items : List LineItem) (s : IState),
      (∀ i ∈ items, ∃ d, i = LineItem.ok d) →
      ∃ s1, processLines cfg env sid s items = .ok s1 := by
  intro items
  induction items with
  | nil => intro s _; exact ⟨s, rfl⟩
  | cons item rest ih =>
    intro s hok
    obtain ⟨d, hd⟩ := hok item (List.mem_cons_self item rest)
    subst hd
    have hstep : ∃ s1, processItem cfg env sid s (.ok d) = .ok s1 := by
      simp only [processItem]
      split
      · exact ⟨_, rfl⟩
      · rename_i t row ln heq
        obtain ⟨s1, h1, _⟩ := accAddStaged_ok cfg env
          { s with totalProcessed := s.totalProcessed + 1 } t row hins
        exact ⟨s1, h1⟩
    obtain ⟨s1, h1⟩ := hstep
    obtain ⟨s2, h2⟩ := ih s1 (fun i hi => hok i (List.mem_cons_of_mem _ hi))
    refine ⟨s2, ?_⟩
    simp only [processLines, h1]
    exact h2

/-- The streaming phase splits over list append. -/
theorem processLines_append (cfg : IngestConfig) (env : IngestEnv)
    (sid : String) (xs ys : List LineItem) :
    ∀ s, processLines cfg env sid s (xs ++ ys) =
      match processLines cfg env sid s xs with
      | .error es => .error es
      | .ok s1 => processLines cfg env sid s1 ys := by
  induction xs with
  | nil => intro s; rfl
  | cons x xs ih =>
    intro s
    simp only [List.cons_append, processLines]
    cases processItem cfg env sid s x with
    | error es => rfl
    | ok s1 => exact ih s1

/-! ## Claim C5 — resilient mode never aborts on content -/

/-- Claim C5: over an input of `N` (non-empty) lines of which exactly `K`
fail to decode, an ingestion run in resilient mode with no I/O failure
and no store failure never aborts because of line content: it succeeds,
and the resulting stats report `totalEntriesProcessed = N` and
`parseErrors = K`. -/
theorem resilient_decode_stats (cfg : IngestConfig) (env : IngestEnv)
    (uuid : String) (mt now : Int) (lines : List LineItem) (db0 : DBState)
    (hres : cfg.resilient = true) (hio : LineItem.ioErr ∉ lines)
    (hins : ∀ k, env.insertFails k = false)
    (htr : env.truncateFails = false) (hfl : env.flushFails = false)
    (hcur : env.cursorFails = false) :
    ∃ stats, (ingestSession cfg env uuid mt now lines db0).2 = .ok stats
      ∧ stats.totalEntriesProcessed = lines.length
      ∧ stats.parseErrors = lines.count LineItem.bad := by
  unfold ingestSession
  rw [if_neg (by simp [htr])]
  simp only [List.nil_append]
  obtain ⟨s2, hpl, hp2, he2⟩ := processLines_resilient_ok cfg env uuid hres hins
    lines
    { db := truncate_staging_tables db0, accs := emptyAccumulators,
      totalProcessed := 0, skipped := 0, parseErrors := 0,
      insertCalls := 0, trace := [TraceEv.truncateAll] } hio
  rw [hpl]
  dsimp only
  obtain ⟨s3, hfa, a3, b3, _⟩ := accFlushAllStaged_ok env s2 hins
  rw [hfa]
  dsimp only
  unfold flushAllStep
  rw [if_neg (by simp [hfl])]
  rcases hfs : flushAllStaging s3.db with ⟨db1, fres⟩
  dsimp only
  unfold cursorStep
  by_cases hup : cfg.updateCursor
  · rw [if_pos hup, if_neg (by simp [hcur])]
    refine ⟨_, rfl, ?_, ?_⟩
    · show _ = lines.length
      simp only [mkStats]
      rw [a3, hp2]
      simp
    · show _ = lines.count LineItem.bad
      simp only [mkStats]
      rw [b3, he2]
      simp
  · rw [if_neg hup]
    refine ⟨_, rfl, ?_, ?_⟩
    · show _ = lines.length
      simp only [mkStats]
      rw [a3, hp2]
      simp
    · show _ = lines.count LineItem.bad
      simp only [mkStats]
      rw [b3, he2]
      simp

/-- Witness for C5: a three-line artifact — a decoded progress entry, a
malformed line, a decoded custom-title entry — ingested in the default
resilient configuration reports 3 entries processed and 1 parse
error. -/
theorem resilient_decode_stats_witness :
    ∃ stats,
      (ingestSession {} IngestEnv.noFail "u" 1 2
          [LineItem.ok ⟨1, .progress "t1" none none none none none none none⟩,
           LineItem.bad, LineItem.ok ⟨3, .customTitle "t3" "hello"⟩]
          dbEmpty).2 = .ok stats
      ∧ stats.totalEntriesProcessed = 3 ∧ stats.parseErrors = 1 := by
  obtain ⟨stats, h1, h2, h3⟩ := resilient_decode_stats {} IngestEnv.noFail "u" 1 2
    [LineItem.ok ⟨1, .progress "t1" none none none none none none none⟩,
     LineItem.bad, LineItem.ok ⟨3, .customTitle "t3" "hello"⟩]
    dbEmpty rfl (by simp) (fun _ => rfl) rfl rfl rfl
  exact ⟨stats, h1, h2, h3⟩

/-! ## Claim C9 — what a failed run yields -/

/-- Counterexample for C9: a strict-mode run over a single undecodable
line yields no IngestionStats at all — `ingestSession` fails with
`ParseError` — refuting the claim that a failed run still yields stats in
a failed shape. -/
theorem ingest_failed_no_stats :
    (ingestSession { resilient := false } IngestEnv.noFail "u" 1 2
        [LineItem.bad] dbEmpty).2 = .error .parse
    ∧ ∀ stats, (ingestSession { resilient := false } IngestEnv.noFail "u" 1 2
        [LineItem.bad] dbEmpty).2 ≠ .ok stats := by
  refine ⟨rfl, fun stats h => ?_⟩
  rw [show (ingestSession { resilient := false } IngestEnv.noFail "u" 1 2
      [LineItem.bad] dbEmpty).2 = .error .parse from rfl] at h
  exact Except.noConfusion h

/-- Claim C9 (amended): a failed artifact run yields no IngestionStats;
instead `ingestSession` fails with a distinguishable tagged error
carrying the cause — `ParseError` when decoding aborts in strict mode,
`DBError` with operation `transaction` when the flush-to-permanent step
aborts.  Stats are produced only by a successful run. -/
theorem ingest_failure_is_tagged_error (cfg : IngestConfig) (env : IngestEnv)
    (uuid : String) (mt now : Int) (pre post lines : List LineItem)
    (db0 : DBState) :
    (cfg.resilient = false → lines = pre ++ LineItem.bad :: post →
      (∀ i ∈ pre, ∃ d, i = LineItem.ok d) →
      (∀ k, env.insertFails k = false) → env.truncateFails = false →
      (ingestSession cfg env uuid mt now lines db0).2 = .error .parse)
    ∧ (cfg.resilient = true → LineItem.ioErr ∉ lines →
      (∀ k, env.insertFails k = false) → env.truncateFails = false →
      env.flushFails = true →
      (ingestSession cfg env uuid mt now lines db0).2 =
        .error (.db .transaction)) := by
  constructor
  · intro hres hlines hpre hins htr
    subst hlines
    unfold ingestSession
    rw [if_neg (by simp [htr])]
    simp only [List.nil_append]
    obtain ⟨s2, hpl⟩ := processLines_entries_ok cfg env uuid hins pre
      { db := truncate_staging_tables db0, accs := emptyAccumulators,
        totalProcessed := 0, skipped := 0, parseErrors := 0,
        insertCalls := 0, trace := [TraceEv.truncateAll] } hpre
    rw [processLines_append cfg env uuid pre (LineItem.bad :: post), hpl]
    dsimp only
    simp only [processLines, processItem]
    rw [if_neg (by simp [hres])]
  · intro hres hio hins htr hfl
    unfold ingestSession
    rw [if_neg (by simp [htr])]
    simp only [List.nil_append]
    obtain ⟨s2, hpl, _, _⟩ := processLines_resilient_ok cfg env uuid hres hins
      lines
      { db := truncate_staging_tables db0, accs := emptyAccumulators,
        totalProcessed := 0, skipped := 0, parseErrors := 0,
        insertCalls := 0, trace := [TraceEv.truncateAll] } hio
    rw [hpl]
    dsimp only
    obtain ⟨s3, hfa, _, _, _⟩ := accFlushAllStaged_ok env s2 hins
    rw [hfa]
    dsimp only
    unfold flushAllStep
    rw [if_pos hfl]

/-- Witness for C9 (amended): a run whose flush transaction fails yields
the tagged transaction error, not stats. -/
theorem ingest_failure_is_tagged_error_witness :
    (ingestSession {} ⟨fun _ => false, false, true, false⟩ "u" 1 2
        [LineItem.bad] dbEmpty).2 = .error (.db .transaction) :=
  (ingest_failure_is_tagged_error {} ⟨fun _ => false, false, true, false⟩
      "u" 1 2 [] [] [LineItem.bad] dbEmpty).2
    rfl (by simp) (fun _ => rfl) rfl rfl

/-! ## Claim C8 — scan ordering and the exclusive since filter -/

/-- Sessions surviving the scan loop with an active `since` filter are
strictly newer than `since`. -/
theorem mem_scanCollect_since (t : Int) :
    ∀ (results : List (Except String SessionFile)) (acc : List SessionFile),
      ∀ f ∈ scanCollect (some t) acc results, f ∈ acc ∨ t < f.modifiedAt := by
  intro results
  induction results with
  | nil => intro acc f hf; exact Or.inl hf
  | cons r rest ih =>
    intro acc f hf
    cases r with
    | error msg => exact ih acc f hf
    | ok s =>
      by_cases hle : s.modifiedAt ≤ t
      · rw [scanCollect, if_pos hle] at hf
        exact ih acc f hf
      · rw [scanCollect, if_neg hle] at hf
        rcases ih (acc ++ [s]) f hf with hmem | hgt
        · rcases List.mem_append.mp hmem with h | h
          · exact Or.inl h
          · simp only [List.mem_singleton] at h
            subst h
            exact Or.inr (lt_of_not_le hle)
        · exact Or.inr hgt

/-- Claim C8: the scan result is sorted ascending by modification time,
and the `since` filter is exclusive — a session is returned only if its
modification time is strictly greater than the `since` timestamp, so a
session whose modification time equals `since` is excluded.  The same
holds for the `applyFilters` pipeline of `scanner/filters.ts`. -/
theorem scan_sorted_and_since_exclusive
    (results : List (Except String SessionFile)) (since : Option Int)
    (limit : Option Nat) (sessions : List SessionFile) (options : ScanOptions) :
    List.Sorted mtimeLe (scanPipeline results since limit)
    ∧ (∀ t, since = some t →
        ∀ f ∈ scanPipeline results since limit, t < f.modifiedAt)
    ∧ List.Sorted mtimeLe (applyFilters sessions options)
    ∧ (∀ t, options.since = some t →
        ∀ f ∈ applyFilters sessions options, t < f.modifiedAt) := by
  have htake : ∀ (l : List SessionFile) (lim : Option Nat),
      (match lim with
       | some n => if n = 0 then l else l.take n
       | none => l).Sublist l := by
    intro l lim
    cases lim with
    | none => exact List.Sublist.refl l
    | some n =>
      by_cases hn : n = 0
      · simp [hn]
      · simpa [hn] using List.take_sublist n l
  have hscanSub : (scanPipeline results since limit).Sublist
      ((scanCollect since [] results).insertionSort mtimeLe) := htake _ _
  have happSub : (applyFilters sessions options).Sublist
      (List.insertionSort mtimeLe
        (match options.since with
         | some t => filterBySince sessions t
         | none => sessions)) := by
    unfold applyFilters sortOldestFirst
    cases hl : options.limit with
    | none => exact List.Sublist.refl _
    | some n =>
      by_cases hn : 0 < n
      · simpa [hn] using List.take_sublist n _
      · simp [hn]
  refine ⟨?_, ?_, ?_, ?_⟩
  · exact ((List.sorted_insertionSort mtimeLe _).sublist hscanSub)
  · intro t ht f hf
    subst ht
    have hf2 := hscanSub.mem hf
    have hf3 := (List.mem_insertionSort mtimeLe).mp hf2
    rcases mem_scanCollect_since t results [] f hf3 with h | h
    · exact absurd h (List.not_mem_nil f)
    · exact h
  · exact ((List.sorted_insertionSort mtimeLe _).sublist happSub)
  · intro t ht f hf
    have hf2 := happSub.mem hf
    rw [ht] at hf2
    have hf3 := (List.mem_insertionSort mtimeLe).mp hf2
    have := List.of_mem_filter hf3
    exact of_decide_eq_true this

/-- Witness for C8: a scan over three discovery outcomes (one error, one
session at the `since` bound, one strictly newer) with `since = 5`
returns only the newer session, sorted. -/
theorem scan_sorted_and_since_exclusive_witness :
    (5 : Int) < (SessionFile.mk "b" 7).modifiedAt :=
  (scan_sorted_and_since_exclusive
      [.error "bad", .ok ⟨"a", 5⟩, .ok ⟨"b", 7⟩] (some 5) none [] {}).2.1
    5 rfl ⟨"b", 7⟩ (by simp [scanPipeline, scanCollect, List.insertionSort])

/-! ## Claim C6 — accumulator threshold behaviour -/

/-- Adding items that leave the buffer strictly below the batch size
triggers no flush. -/
theorem accAddMany_below_threshold {T : Type} (tn : String)
    (fl : List T → Nat) (B : Nat) :
    ∀ (xs : List T) (s : AccumulatorState T),
      s.items.length + xs.length < B →
      accAddMany tn fl B s xs = ({ s with items := s.items ++ xs }, []) := by
  intro xs
  induction xs with
  | nil => intro s _; simp [accAddMany]
  | cons x rest ih =>
    intro s h
    simp only [List.length_cons] at h
    have hx : ¬ B ≤ (s.items ++ [x]).length := by
      simp only [List.length_append, List.length_singleton]
      omega
    have hrec := ih { s with items := s.items ++ [x] }
      (by simp only [List.length_append, List.length_singleton]; omega)
    simp only [accAddMany, accAdd, hx, if_false]
    rw [hrec]
    simp

/-- Adding items that bring the buffer exactly to the batch size triggers
exactly one flush, of the whole buffer. -/
theorem accAddMany_exact_threshold {T : Type} (tn : String)
    (fl : List T → Nat) (B : Nat) :
    ∀ (xs : List T) (s : AccumulatorState T), xs ≠ [] →
      s.items.length + xs.length = B →
      accAddMany tn fl B s xs =
        (⟨[], s.totalFlushed + fl (s.items ++ xs), s.flushCount + 1⟩,
         [⟨fl (s.items ++ xs), tn, 0⟩]) := by
  intro xs
  induction xs with
  | nil => intro s hne _; exact absurd rfl hne
  | cons x rest ih =>
    intro s _ hlen
    simp only [List.length_cons] at hlen
    by_cases hrest : rest = []
    · subst hrest
      simp only [List.length_nil] at hlen
      have hx : B ≤ (s.items ++ [x]).length := by
        simp only [List.length_append, List.length_singleton]
        omega
      have hne : (s.items ++ [x]).isEmpty = false := by
        simp [List.isEmpty_eq_false_iff_exists_mem]
      simp only [accAddMany, accAdd, hx, if_true, doFlush, hne]
      simp
    · have hpos : 0 < rest.length := List.length_pos.mpr hrest
      have hx : ¬ B ≤ (s.items ++ [x]).length := by
        simp only [List.length_append, List.length_singleton]
        omega
      have hrec := ih { s with items := s.items ++ [x] } hrest
        (by simp only [List.length_append, List.length_singleton]; omega)
      simp only [accAddMany, accAdd, hx, if_false]
      rw [hrec]
      simp

/-- Source `addMany` distributes over append. -/
theorem accAddMany_append {T : Type} (tn : String) (fl : List T → Nat)
    (B : Nat) :
    ∀ (xs ys : List T) (s : AccumulatorState T),
      accAddMany tn fl B s (xs ++ ys) =
        ((accAddMany tn fl B (accAddMany tn fl B s xs).1 ys).1,
         (accAddMany tn fl B s xs).2 ++
           (accAddMany tn fl B (accAddMany tn fl B s xs).1 ys).2) := by
  intro xs
  induction xs with
  | nil => intro ys s; simp [accAddMany]
  | cons x rest ih =>
    intro ys s
    simp only [List.cons_append, accAddMany, List.append_eq]
    rw [ih]
    simp [List.append_assoc]

/-- Counterexample for C6: the claim fails for batch sizes 0 and 1.  At
batch size 1, adding 2 items triggers two automatic flushes and leaves
nothing buffered (not one flush with one item buffered); at batch size 0,
adding exactly 0 items triggers no flush at all (not exactly one). -/
theorem accumulator_threshold_counterexample :
    accAddMany "t" List.length 1 accEmpty [10, 20] =
      (⟨[], 2, 2⟩, [⟨1, "t", 0⟩, ⟨1, "t", 0⟩])
    ∧ accAddMany "t" List.length 0 (accEmpty (T := Nat)) [] = (accEmpty, []) := by
  constructor
  · rfl
  · rfl

/-- Claim C6 (amended): for a batch accumulator with batch size `B ≥ 1`,
adding exactly `B` items triggers exactly one automatic flush whose batch
is exactly those `B` rows; for `B ≥ 2`, adding `B + 1` items triggers
exactly one automatic flush of the first `B` rows and leaves exactly one
item buffered; and a forced flush of an empty buffer is a no-op returning
an inserted count of 0 (independent of the flush function, hence without
invoking it) rather than an error. -/
theorem accumulator_threshold_amended {T : Type} (tn : String)
    (fl : List T → Nat) (B : Nat) (xs : List T) (x : T) :
    (1 ≤ B → xs.length = B →
      accAddMany tn fl B accEmpty xs = (⟨[], fl xs, 1⟩, [⟨fl xs, tn, 0⟩]))
    ∧ (2 ≤ B → xs.length = B →
      accAddMany tn fl B accEmpty (xs ++ [x]) =
        (⟨[x], fl xs, 1⟩, [⟨fl xs, tn, 0⟩]))
    ∧ doFlush tn fl (accEmpty (T := T)) = (accEmpty, ⟨0, tn, 0⟩) := by
  have hexact : 1 ≤ B → xs.length = B →
      accAddMany tn fl B accEmpty xs = (⟨[], fl xs, 1⟩, [⟨fl xs, tn, 0⟩]) := by
    intro hB hlen
    have hne : xs ≠ [] := by
      intro h
      rw [h] at hlen
      simp at hlen
      omega
    have := accAddMany_exact_threshold tn fl B xs accEmpty hne
      (by simp [accEmpty, hlen])
    simpa [accEmpty] using this
  refine ⟨hexact, ?_, by simp [doFlush, accEmpty]⟩
  intro hB hlen
  rw [accAddMany_append tn fl B xs [x] accEmpty,
      hexact (le_trans one_le_two hB) hlen]
  have h1 := accAddMany_below_threshold tn fl B [x]
    ⟨[], fl xs, 1⟩ (by simp; omega)
  rw [h1]
  simp

/-! ## Claim C1 — row-level idempotence of flush-to-permanent -/

/-- Staged rows with non-NULL, pairwise-distinct keys, none already
present, are all inserted, in order. -/
theorem insertConflictFree_fresh (batch : List RRow) :
    ∀ perm : List RRow,
      (∀ r ∈ batch, ∃ k, rowKey r = some k ∧ k ≠ Val.null) →
      batch.Pairwise (fun r q => rowKey r ≠ rowKey q) →
      (∀ r ∈ batch, ∀ q ∈ perm, rowKey q ≠ rowKey r) →
      insertConflictFree perm batch = (perm ++ batch, batch.length) := by
  induction batch with
  | nil => intro perm _ _ _; simp [insertConflictFree]
  | cons r rest ih =>
    intro perm hkeys hnodup hfresh
    obtain ⟨k, hk, hknull⟩ := hkeys r (List.mem_cons_self r rest)
    have hc : keyConflicts perm r = false := by
      unfold keyConflicts
      rw [hk]
      simp only [if_neg hknull]
      rw [List.any_eq_false]
      intro q hq
      have := hfresh r (List.mem_cons_self r rest) q hq
      rw [hk] at this
      simp [this]
    have hrec := ih (perm ++ [r])
      (fun r2 h2 => hkeys r2 (List.mem_cons_of_mem r h2))
      (List.Pairwise.of_cons hnodup)
      (by
        intro r2 h2 q hq
        rcases List.mem_append.mp hq with hq2 | hq2
        · exact hfresh r2 (List.mem_cons_of_mem r h2) q hq2
        · simp only [List.mem_singleton] at hq2
          subst hq2
          exact (List.pairwise_cons.mp hnodup).1 r2 h2)
    simp only [insertConflictFree, hc, if_false]
    rw [hrec]
    simp [List.append_assoc]

/-- Staged rows that all conflict are all skipped: nothing is inserted
and the permanent table is unchanged. -/
theorem insertConflictFree_all_conflict (staged : List RRow) :
    ∀ perm : List RRow, (∀ r ∈ staged, keyConflicts perm r = true) →
      insertConflictFree perm staged = (perm, 0) := by
  induction staged with
  | nil => intro perm _; simp [insertConflictFree]
  | cons r rest ih =>
    intro perm hall
    have hc := hall r (List.mem_cons_self r rest)
    simp only [insertConflictFree, hc, if_true]
    exact ih perm (fun r2 h2 => hall r2 (List.mem_cons_of_mem r h2))

/-- Claim C1: flush-to-permanent is idempotent at the row level keyed by
the destination's primary key.  For a staged batch of `N` rows with
non-NULL, pairwise-distinct keys not yet present in the permanent table:
the first flush inserts all `N` rows and truncates staging; re-staging
the same batch and flushing a second time inserts `0` rows and leaves the
permanent table identical to its contents after the single flush. -/
theorem flush_idempotent_rowlevel (perm batch : List RRow)
    (hkeys : ∀ r ∈ batch, ∃ k, rowKey r = some k ∧ k ≠ Val.null)
    (hnodup : batch.Pairwise (fun r q => rowKey r ≠ rowKey q))
    (hfresh : ∀ r ∈ batch, ∀ q ∈ perm, rowKey q ≠ rowKey r) :
    flushTable ⟨batch, perm⟩ = (⟨[], perm ++ batch⟩, batch.length)
    ∧ flushTable ⟨batch, perm ++ batch⟩ = (⟨[], perm ++ batch⟩, 0) := by
  constructor
  · have h := insertConflictFree_fresh batch perm hkeys hnodup hfresh
    simp [flushTable, h]
  · have hall : ∀ r ∈ batch, keyConflicts (perm ++ batch) r = true := by
      intro r hr
      obtain ⟨k, hk, hknull⟩ := hkeys r hr
      unfold keyConflicts
      rw [hk]
      simp only [if_neg hknull]
      exact List.any_eq_true.mpr
        ⟨r, List.mem_append_right _ hr, by simp [hk]⟩
    have h := insertConflictFree_all_conflict batch (perm ++ batch) hall
    simp [flushTable, h]

/-- Witness for C1: a two-row batch with keys `a`, `b` staged over an
empty permanent table — the first flush inserts 2, the re-staged second
flush inserts 0 and leaves the table unchanged. -/
theorem flush_idempotent_rowlevel_witness :
    flushTable ⟨[[("id", Val.str "a")], [("id", Val.str "b")]], []⟩ =
      (⟨[], [[("id", Val.str "a")], [("id", Val.str "b")]]⟩, 2)
    ∧ flushTable ⟨[[("id", Val.str "a")], [("id", Val.str "b")]],
        [[("id", Val.str "a")], [("id", Val.str "b")]]⟩ =
      (⟨[], [[("id", Val.str "a")], [("id", Val.str "b")]]⟩, 0) := by
  have h := flush_idempotent_rowlevel [] [[("id", Val.str "a")], [("id", Val.str "b")]]
    (by
      intro r hr
      simp only [List.mem_cons, List.not_mem_nil, or_false] at hr
      rcases hr with rfl | rfl
      · exact ⟨Val.str "a", rfl, by decide⟩
      · exact ⟨Val.str "b", rfl, by decide⟩)
    (by decide)
    (by intro r _ q hq; exact absurd hq (List.not_mem_nil q))
  simpa using h

/-- Witness for C6 (amended): at batch size 2, adding `[10, 20]` flushes
once with both rows, adding `[10, 20, 30]` flushes once and buffers `30`,
and a forced flush of the fresh accumulator is a zero-count no-op. -/
theorem accumulator_threshold_amended_witness :
    accAddMany "t" List.length 2 accEmpty [10, 20] =
      (⟨[], 2, 1⟩, [⟨2, "t", 0⟩])
    ∧ accAddMany "t" List.length 2 accEmpty ([10, 20] ++ [30]) =
      (⟨[30], 2, 1⟩, [⟨2, "t", 0⟩])
    ∧ doFlush "t" List.length (accEmpty (T := Nat)) = (accEmpty, ⟨0, "t", 0⟩) :=
  ⟨(accumulator_threshold_amended "t" List.length 2 [10, 20] 30).1
      (by decide) rfl,
   (accumulator_threshold_amended "t" List.length 2 [10, 20] 30).2.1
      (by decide) rfl,
   (accumulator_threshold_amended "t" List.length 2 [10, 20] 30).2.2⟩

end Simulacrum
